import Mathlib

/-
  Verification of the voice-clone request-handling layer.

  Shallow embedding of the defensive boundary code of the repository:
  the sanitizers and rate limiter of lib/security.ts, the audio magic
  number validator, the TTS request validation of app/api/tts/route.ts,
  the create-model handler, and the configuration loader.

  Strings manipulated by the handlers are modelled as List Char, file
  contents as List Nat (byte values), timestamps as Nat milliseconds.
  The global-regex replacements of the source are embedded as fuel
  indexed scanning functions (fuel = input length suffices), mirroring
  the leftmost-match, replace, continue-after-match semantics of the
  JavaScript String.replace with a global regex.
-/

namespace VoiceClone

/-- Whitespace as matched by the JavaScript regex class for spaces and by
String.prototype.trim, restricted to the ASCII range. -/
def isSpaceJS (c : Char) : Bool :=
  c = ' ' || c = '\t' || c = '\n' || c = '\r' || c = '\x0b' || c = '\x0c'

/-- Word characters as matched by the JavaScript word class: ASCII letters,
digits and underscore. -/
def isWordChar (c : Char) : Bool :=
  ('a' ≤ c && c ≤ 'z') || ('A' ≤ c && c ≤ 'Z') || ('0' ≤ c && c ≤ '9') || c = '_'

/-- Hexadecimal digits as matched by the token-redaction regex of
sanitizeErrorMessage (case-insensitive flag makes A-F match as well). -/
def isHexChar (c : Char) : Bool :=
  ('0' ≤ c && c ≤ '9') || ('a' ≤ c && c ≤ 'f') || ('A' ≤ c && c ≤ 'F')

/-- The class of characters matched by the negated space class of the path
regex. -/
def nonSpace (c : Char) : Bool := !isSpaceJS c

/-- Case-insensitive prefix test, used for the case-insensitive literal
parts of the sanitizer regexes. -/
def startsWithCI : List Char → List Char → Bool
  | [], _ => true
  | _ :: _, [] => false
  | p :: ps, c :: cs => (p.toLower = c.toLower) && startsWithCI ps cs

/-- JavaScript String.prototype.trim on a character list. -/
def jsTrim (s : List Char) : List Char :=
  ((s.dropWhile isSpaceJS).reverse.dropWhile isSpaceJS).reverse

/-! ### sanitizeErrorMessage (lib/security.ts lines 6-23) -/

/-- Replacement text inserted for path-shaped substrings. -/
def filePathMarker : List Char := ['[', 'F', 'I', 'L', 'E', '_', 'P', 'A', 'T', 'H', ']']

/-- Replacement text inserted for long hexadecimal runs. -/
def tokenMarker : List Char := ['[', 'T', 'O', 'K', 'E', 'N', ']']

/-- Global replacement of the path regex: a slash, any non-space run, a
slash, any non-space run (both greedy).  A match starts at the first slash
of a maximal non-space run that contains a second slash and extends to the
end of that run; scanning continues after the match. -/
def replacePathsF : Nat → List Char → List Char
  | 0, s => s
  | fuel + 1, s =>
    match s with
    | [] => []
    | c :: rest =>
      if c = '/' ∧ '/' ∈ rest.takeWhile nonSpace then
        filePathMarker ++ replacePathsF fuel (rest.dropWhile nonSpace)
      else c :: replacePathsF fuel rest

/-- Global replacement of the path regex with enough fuel. -/
def replacePaths (s : List Char) : List Char := replacePathsF s.length s

/-- Splitting at newlines and keeping the first piece. -/
def firstLine (s : List Char) : List Char := s.takeWhile (fun c => c ≠ '\n')

/-- Global replacement of the 32-or-more hex-character regex: each maximal
hexadecimal run of length at least 32 is replaced by the token marker. -/
def replaceHexF : Nat → List Char → List Char
  | 0, s => s
  | fuel + 1, s =>
    match s with
    | [] => []
    | c :: rest =>
      if isHexChar c then
        if 32 ≤ ((c :: rest).takeWhile isHexChar).length then
          tokenMarker ++ replaceHexF fuel ((c :: rest).dropWhile isHexChar)
        else
          (c :: rest).takeWhile isHexChar ++ replaceHexF fuel ((c :: rest).dropWhile isHexChar)
      else c :: replaceHexF fuel rest

/-- Global replacement of the hex-run regex with enough fuel. -/
def replaceHex (s : List Char) : List Char := replaceHexF s.length s

/-- Embedding of sanitizeErrorMessage on the message of an Error value:
replace path-shaped substrings, keep only the first line, replace long
hexadecimal runs. -/
def sanitizeErrorMessage (message : List Char) : List Char :=
  replaceHex (firstLine (replacePaths message))

/-! ### sanitizeTextInput (lib/security.ts lines 28-37) -/

/-- Opening script-tag test of the script regex at the head of the list:
the literal lt-script (case-insensitive) followed by a word boundary. -/
def scriptOpenAt (s : List Char) : Bool :=
  startsWithCI "<script".data s &&
    (match s.drop 7 with
     | [] => true
     | d :: _ => !isWordChar d)

/-- Searches for the first closing script tag (case-insensitive) and
returns the remainder after it, if any. -/
def findAfterCloseScript : List Char → Option (List Char)
  | [] => none
  | c :: rest =>
    if startsWithCI "</script>".data (c :: rest) then some (rest.drop 8)
    else findAfterCloseScript rest

/-- Global replacement of the script-tag regex: a match begins at an
opening script tag with word boundary and ends at the first closing
script tag after it; the match is removed. -/
def removeScriptsF : Nat → List Char → List Char
  | 0, s => s
  | fuel + 1, s =>
    match s with
    | [] => []
    | c :: rest =>
      if scriptOpenAt (c :: rest) then
        match findAfterCloseScript ((c :: rest).drop 7) with
        | some rem => removeScriptsF fuel rem
        | none => c :: removeScriptsF fuel rest
      else c :: removeScriptsF fuel rest

/-- Global removal of the javascript: scheme literal (case-insensitive). -/
def removeJSF : Nat → List Char → List Char
  | 0, s => s
  | fuel + 1, s =>
    match s with
    | [] => []
    | c :: rest =>
      if startsWithCI "javascript:".data (c :: rest) then
        removeJSF fuel (rest.drop 10)
      else c :: removeJSF fuel rest

/-- Match of the event-handler regex at the head of the list: the literal
on (case-insensitive), one or more word characters, optional whitespace,
and an equals sign.  Returns the remainder after the match, if any. -/
def eventMatchAt : List Char → Option (List Char)
  | [] => none
  | c :: rest =>
    if startsWithCI "on".data (c :: rest) then
      match (rest.drop 1).takeWhile isWordChar with
      | [] => none
      | _ :: _ =>
        match ((rest.drop 1).dropWhile isWordChar).dropWhile isSpaceJS with
        | '=' :: r3 => some r3
        | _ => none
    else none

/-- Global removal of inline event-handler assignments. -/
def removeEventsF : Nat → List Char → List Char
  | 0, s => s
  | fuel + 1, s =>
    match s with
    | [] => []
    | c :: rest =>
      match eventMatchAt (c :: rest) with
      | some r3 => removeEventsF fuel r3
      | none => c :: removeEventsF fuel rest

/-- Script-tag removal with enough fuel. -/
def removeScripts (s : List Char) : List Char := removeScriptsF s.length s

/-- javascript: scheme removal with enough fuel. -/
def removeJS (s : List Char) : List Char := removeJSF s.length s

/-- Event-handler assignment removal with enough fuel. -/
def removeEvents (s : List Char) : List Char := removeEventsF s.length s

/-- Embedding of sanitizeTextInput: trim, remove script tags, remove the
javascript: scheme, remove event-handler assignments, truncate to 5000
characters. -/
def sanitizeTextInput (input : List Char) : List Char :=
  (removeEvents (removeJS (removeScripts (jsTrim input)))).take 5000

/-! ### validateAudioFile (lib/security.ts lines 54-124) -/

/-- Result record of validateAudioFile. -/
structure AudioValidationResult where
  isValid : Bool
  detectedFormat : Option String
  error : Option String
deriving DecidableEq

/-- RIFF header bytes. -/
def wavMagic : List Nat := [0x52, 0x49, 0x46, 0x46]

/-- Most common MP3 frame-sync bytes. -/
def mp3Magic : List Nat := [0xFF, 0xFB]

/-- Alternative MP3 frame-sync bytes. -/
def mp3AltMagic : List Nat := [0xFF, 0xFA]

/-- ID3 tag bytes. -/
def id3Magic : List Nat := [0x49, 0x44, 0x33]

/-- Ogg capture pattern bytes. -/
def oggMagic : List Nat := [0x4F, 0x67, 0x67, 0x53]

/-- FLAC marker bytes. -/
def flacMagic : List Nat := [0x66, 0x4C, 0x61, 0x43]

/-- The ftyp marker bytes checked at offset 4. -/
def ftypMagic : List Nat := [0x66, 0x74, 0x79, 0x70]

/-- Embedding of validateAudioFile on the bytes of a readable file. -/
def validateAudioFile (buffer : List Nat) : AudioValidationResult :=
  if buffer.length < 8 then
    ⟨false, none, some "File too small to be a valid audio file"⟩
  else if buffer.take 4 = wavMagic then ⟨true, some "wav", none⟩
  else if buffer.take 2 = mp3Magic ∨ buffer.take 2 = mp3AltMagic then ⟨true, some "mp3", none⟩
  else if buffer.take 3 = id3Magic then ⟨true, some "mp3", none⟩
  else if buffer.take 4 = oggMagic then ⟨true, some "ogg", none⟩
  else if buffer.take 4 = flacMagic then ⟨true, some "flac", none⟩
  else if 8 ≤ buffer.length ∧ (buffer.drop 4).take 4 = ftypMagic then ⟨true, some "m4a", none⟩
  else ⟨false, none, some "File does not appear to be a valid audio format"⟩

/-- Specification-side definition for the refinement claim: the first
matching signature in the priority order stated by the spec (RIFF, MP3
frame sync, ID3, Ogg, FLAC, ftyp at offset 4). -/
def firstSignatureFormat (buffer : List Nat) : Option String :=
  if buffer.take 4 = wavMagic then some "wav"
  else if buffer.take 2 = mp3Magic ∨ buffer.take 2 = mp3AltMagic then some "mp3"
  else if buffer.take 3 = id3Magic then some "mp3"
  else if buffer.take 4 = oggMagic then some "ogg"
  else if buffer.take 4 = flacMagic then some "flac"
  else if (buffer.drop 4).take 4 = ftypMagic then some "m4a"
  else none

/-! ### checkRateLimit (lib/security.ts lines 129-158) -/

/-- An entry of the in-memory rate-limit store. -/
structure RateLimitEntry where
  count : Nat
  resetTime : Nat
deriving DecidableEq

/-- The in-memory rate-limit store: association list keyed by client
identifier, mirroring the Map of the source. -/
def RateLimitStore := List (String × RateLimitEntry)

/-- Map.get on the store. -/
def storeGet : List (String × RateLimitEntry) → String → Option RateLimitEntry
  | [], _ => none
  | (k, v) :: t, key => if k = key then some v else storeGet t key

/-- Map.set on the store: replace the entry in place, or append. -/
def storeSet : List (String × RateLimitEntry) → String → RateLimitEntry →
    List (String × RateLimitEntry)
  | [], key, v => [(key, v)]
  | (k, w) :: t, key, v => if k = key then (key, v) :: t else (k, w) :: storeSet t key v

/-- Result record of checkRateLimit. -/
structure RateLimitResult where
  allowed : Bool
  resetTime : Option Nat
deriving DecidableEq

/-- Embedding of checkRateLimit: the current time is passed explicitly and
the mutated store is returned alongside the result. -/
def checkRateLimit (store : List (String × RateLimitEntry)) (identifier : String)
    (maxRequests windowMs now : Nat) : RateLimitResult × List (String × RateLimitEntry) :=
  match storeGet store identifier with
  | none => (⟨true, none⟩, storeSet store identifier ⟨1, now + windowMs⟩)
  | some entry =>
    if now > entry.resetTime then
      (⟨true, none⟩, storeSet store identifier ⟨1, now + windowMs⟩)
    else if entry.count ≥ maxRequests then
      (⟨false, some entry.resetTime⟩, store)
    else
      (⟨true, none⟩, storeSet store identifier ⟨entry.count + 1, entry.resetTime⟩)

/-- The store after a number of consecutive checkRateLimit calls for the
same identifier at a fixed time. -/
def repeatCalls (identifier : String) (maxRequests windowMs now : Nat) :
    Nat → List (String × RateLimitEntry) → List (String × RateLimitEntry)
  | 0, store => store
  | n + 1, store =>
    (checkRateLimit (repeatCalls identifier maxRequests windowMs now n store)
      identifier maxRequests windowMs now).2

/-! ### validateTTSRequest and the tts handler validation stage
    (app/api/tts/route.ts lines 20-101) -/

/-- Parsed body of a POST tts request.  Absent JSON fields are none; the
speed field is a JavaScript number, modelled as a rational. -/
structure TTSBody where
  text : List Char
  modelId : Option (List Char)
  modelName : Option (List Char)
  format : Option (List Char)
  speed : Option ℚ

/-- Truthiness of an optional string field: present and non-empty. -/
def optTruthy : Option (List Char) → Bool
  | none => false
  | some s => s ≠ []

/-- Validation message for missing or empty text. -/
def msgTextRequired : String := "Text is required and must be a non-empty string"

/-- Validation message for malicious content. -/
def msgMalicious : String := "Text contains potentially malicious content"

/-- Validation message for over-length text. -/
def msgTextTooLong : String := "Text must be less than 5000 characters"

/-- Validation message for a missing model reference. -/
def msgModelRequired : String := "Either modelId or modelName must be provided"

/-- Validation message for an empty modelId. -/
def msgModelIdEmpty : String := "modelId must be a non-empty string"

/-- Validation message for an unsupported format. -/
def msgFormat : String := "Format must be either wav or mp3"

/-- Validation message for an out-of-range speed. -/
def msgSpeed : String := "Speed must be a number between 0 and 3"

/-- Result record of validateTTSRequest. -/
structure TTSValidation where
  isValid : Bool
  errors : List String
deriving DecidableEq

/-- The format check condition: the field is truthy and not one of the two
accepted literals. -/
def formatViolation : Option (List Char) → Prop
  | some f => f ≠ [] ∧ ¬(f = "wav".data ∨ f = "mp3".data)
  | none => False

instance (o : Option (List Char)) : Decidable (formatViolation o) := by
  cases o <;> (unfold formatViolation; infer_instance)

/-- The speed check condition of the source: the field is truthy (a number
other than zero) and out of the open-closed interval from 0 to 3. -/
def speedViolation : Option ℚ → Prop
  | some v => v ≠ 0 ∧ (v ≤ 0 ∨ v > 3)
  | none => False

instance (o : Option ℚ) : Decidable (speedViolation o) := by
  cases o <;> (unfold speedViolation; infer_instance)

/-- Embedding of validateTTSRequest.  Each push onto the errors array of
the source is one conditional singleton; JavaScript truthiness guards are
kept (an empty string and the number zero are falsy). -/
def validateTTSRequest (body : TTSBody) : TTSValidation :=
  let e1 := if body.text = [] ∨ jsTrim body.text = [] then [msgTextRequired] else []
  let e2 := if body.text ≠ [] ∧ "<script".data <:+: body.text then [msgMalicious] else []
  let e3 := if body.text ≠ [] ∧ body.text.length > 5000 then [msgTextTooLong] else []
  let e4 := if ¬optTruthy body.modelId ∧ ¬optTruthy body.modelName then [msgModelRequired]
            else []
  let e5 := if optTruthy body.modelId ∧ jsTrim (body.modelId.getD []) = [] then [msgModelIdEmpty]
            else []
  let e6 := if formatViolation body.format then [msgFormat] else []
  let e7 := if speedViolation body.speed then [msgSpeed] else []
  let errors := e1 ++ e2 ++ e3 ++ e4 ++ e5 ++ e6 ++ e7
  ⟨errors = [], errors⟩

/-- The sanitize step the tts handler applies before validation: the text
field is passed through sanitizeTextInput when truthy. -/
def ttsSanitizeStage (body : TTSBody) : TTSBody :=
  if body.text ≠ [] then
    ⟨sanitizeTextInput body.text, body.modelId, body.modelName, body.format, body.speed⟩
  else body

/-- The validation stage of the tts handler: sanitize the text, validate,
and on failure respond 400 with the details array; none models passing on
to the model lookup. -/
def ttsPOSTValidation (body : TTSBody) : Option (Nat × List String) :=
  let v := validateTTSRequest (ttsSanitizeStage body)
  if v.isValid then none else some (400, v.errors)

/-! ### The create-model POST handler
    (app/api/create-model/route.ts and its native-FormData variant;
    the variant carries the clone-response guard) -/

/-- A persisted row of the models table. -/
structure ModelRow where
  id : List Char
  fishModelId : List Char
  title : List Char
deriving DecidableEq

/-- Lookup by title, embedding getModelByName of lib/db.ts. -/
def getModelByName (store : List ModelRow) (name : List Char) : Option ModelRow :=
  store.find? (fun r => r.title = name)

/-- The response of the provider client cloneVoice call.  The identifier
is optional: none models an absent field of the provider payload and the
empty list models an empty string. -/
structure CloneResponse where
  id : Option (List Char)
  status : List Char
  message : List Char

/-- Outcome of the awaited provider call: a transport-level success with a
parsed response, or a thrown provider error. -/
inductive ProviderOutcome
  | success (resp : CloneResponse)
  | failure

/-- Message of the name-required validation exit. -/
def msgNameRequired : String := "Name is required and must not be empty"

/-- Message of the name-length validation exit. -/
def msgNameTooLong : String := "Name must be less than 100 characters"

/-- Message of the audio-required validation exit. -/
def msgAudioRequired : String := "Audio file is required"

/-- Message of the duplicate-title exit. -/
def msgDuplicate : String := "A voice model with this name already exists"

/-- Message of the provider-failure exit. -/
def msgExternalApi : String := "Failed to process voice cloning with external service"

/-- Message of the success exit. -/
def msgCreated : String := "Voice model created successfully"

/-- Observable outcome of one create-model request: HTTP status, message,
optional details array, resulting store, and whether the provider call,
the database insert, and the temp-file deletion happened. -/
structure CreateModelOutcome where
  status : Nat
  message : String
  details : Option (List String)
  store : List ModelRow
  providerCalled : Bool
  dbInsertAttempted : Bool
  tempFileDeleted : Bool

/-- Embedding of the create-model POST handler after a passing rate-limit
check and a successful multipart parse.  The parse stage has already
sanitized the name and description; the audio argument is the byte content
of the temp upload (none when no audio part survived the parse); the
provider outcome and the generated row identifier are parameters.  The
unique constraint of the models table on the remote identifier is
modelled: a conflicting insert leaves the store unchanged and exits 409. -/
def createModelPOST (rawName : List Char) (audio : Option (List Nat))
    (store : List ModelRow) (provider : ProviderOutcome) (freshId : List Char) :
    CreateModelOutcome :=
  let name := sanitizeTextInput rawName
  if name.length < 1 then
    ⟨400, msgNameRequired, none, store, false, false, false⟩
  else if name.length > 100 then
    ⟨400, msgNameTooLong, none, store, false, false, false⟩
  else
    match audio with
    | none => ⟨400, msgAudioRequired, none, store, false, false, false⟩
    | some bytes =>
      if (validateAudioFile bytes).isValid = false then
        ⟨400, ((validateAudioFile bytes).error.getD "File is not a valid audio format"),
          none, store, false, false, true⟩
      else if (getModelByName store name).isSome then
        ⟨409, msgDuplicate, none, store, false, false, false⟩
      else
        match provider with
        | .failure => ⟨502, msgExternalApi, none, store, true, false, false⟩
        | .success resp =>
          if resp.id = none ∨ resp.id = some [] then
            ⟨502, msgExternalApi, none, store, true, false, false⟩
          else
            let fid := resp.id.getD []
            if store.any (fun r => r.fishModelId = fid) then
              ⟨409, msgDuplicate, none, store, true, true, false⟩
            else
              ⟨201, msgCreated, none, store ++ [⟨freshId, fid, name⟩], true, true, true⟩

/-! ### Configuration loader (lib/config.ts) -/

/-- Error message of the lower bound of the MAX_FILE_SIZE_MB schema. -/
def msgFileSizeTooSmall : String := "MAX_FILE_SIZE_MB: Number must be greater than or equal to 1"

/-- Error message of the upper bound of the MAX_FILE_SIZE_MB schema. -/
def msgFileSizeTooBig : String := "MAX_FILE_SIZE_MB: Number must be less than or equal to 50"

/-- Embedding of the MAX_FILE_SIZE_MB branch of the environment schema:
coerce-number with minimum 1, maximum 50 and default 10.  The input is the
coerced numeric value of the environment variable, none when absent.  The
zod checks reject out-of-range values with an issue, they do not clamp. -/
def parseMaxFileSizeMB : Option ℚ → Except String ℚ
  | none => .ok 10
  | some v =>
    if v < 1 then .error msgFileSizeTooSmall
    else if v > 50 then .error msgFileSizeTooBig
    else .ok v

/-! ### Scanning predicates used by the claims -/

/-- The message contains a substring matching the path regex: some slash
is followed, within the same maximal non-space run, by a second slash. -/
def hasPath : List Char → Bool
  | [] => false
  | c :: rest =>
    (decide (c = '/' ∧ '/' ∈ rest.takeWhile nonSpace)) || hasPath rest

/-- The message contains a run of 32 or more hexadecimal characters. -/
def hasHexRun : List Char → Bool
  | [] => false
  | c :: rest => (decide (32 ≤ ((c :: rest).takeWhile isHexChar).length)) || hasHexRun rest

/-- The text contains a match of the script-tag regex. -/
def hasScriptMatch : List Char → Bool
  | [] => false
  | c :: rest =>
    (scriptOpenAt (c :: rest) && (findAfterCloseScript ((c :: rest).drop 7)).isSome) ||
      hasScriptMatch rest

/-- The text contains an occurrence of the javascript: literal
(case-insensitive). -/
def hasJSMatch : List Char → Bool
  | [] => false
  | c :: rest => startsWithCI "javascript:".data (c :: rest) || hasJSMatch rest

/-- The text contains a match of the event-handler regex. -/
def hasEventMatch : List Char → Bool
  | [] => false
  | c :: rest => (eventMatchAt (c :: rest)).isSome || hasEventMatch rest

/-- The text is a fixed point shape of the sanitizer: already trimmed, free
of every removable pattern, and within the length bound. -/
def isSanitized (x : List Char) : Prop :=
  jsTrim x = x ∧ hasScriptMatch x = false ∧ hasJSMatch x = false ∧
    hasEventMatch x = false ∧ x.length ≤ 5000

instance (x : List Char) : Decidable (isSanitized x) := by
  unfold isSanitized; infer_instance

/-! ## Theorems -/

/-- C1: for every readable file, validateAudioFile rejects files of fewer
than 8 bytes; otherwise it accepts exactly when some signature matches,
reporting the first matching signature in priority order as the detected
format, and rejects with an error when no signature matches. -/
theorem validateAudioFile_matches_signature_table (buffer : List Nat) :
    (buffer.length < 8 → (validateAudioFile buffer).isValid = false) ∧
    (8 ≤ buffer.length →
      (∀ f, firstSignatureFormat buffer = some f →
        validateAudioFile buffer = ⟨true, some f, none⟩) ∧
      (firstSignatureFormat buffer = none →
        (validateAudioFile buffer).isValid = false ∧
        (validateAudioFile buffer).error.isSome = true)) := by
  constructor
  · intro hlt
    unfold validateAudioFile
    rw [if_pos hlt]
  · intro hge
    have hnlt : ¬buffer.length < 8 := by omega
    unfold validateAudioFile firstSignatureFormat
    rw [if_neg hnlt]
    constructor
    · intro f hf
      split_ifs at hf ⊢ <;> simp_all
    · intro hf
      split_ifs at hf ⊢ <;> simp_all

/-- Witness for C1 at concrete buffers: a RIFF header is accepted as wav,
an unmatched 8-byte buffer is rejected, and a short buffer is rejected. -/
theorem validateAudioFile_matches_signature_table_witness :
    validateAudioFile [0x52, 0x49, 0x46, 0x46, 0, 0, 0, 0] = ⟨true, some "wav", none⟩ ∧
    (validateAudioFile [9, 9, 9, 9, 9, 9, 9, 9]).isValid = false ∧
    (validateAudioFile [1, 2, 3]).isValid = false :=
  ⟨((validateAudioFile_matches_signature_table _).2 (by decide)).1 "wav" (by decide),
   (((validateAudioFile_matches_signature_table _).2 (by decide)).2 (by decide)).1,
   (validateAudioFile_matches_signature_table [1, 2, 3]).1 (by decide)⟩

/-- Helper: reading back the key just written into the store. -/
theorem storeGet_storeSet (s : List (String × RateLimitEntry)) (k : String)
    (v : RateLimitEntry) : storeGet (storeSet s k v) k = some v := by
  induction s with
  | nil => simp [storeSet, storeGet]
  | cons hd t ih =>
    obtain ⟨k₁, v₁⟩ := hd
    unfold storeSet
    by_cases h : k₁ = k
    · rw [if_pos h]
      simp [storeGet]
    · rw [if_neg h]
      unfold storeGet
      rw [if_neg h]
      exact ih

/-- Helper: after k consecutive calls (1 ≤ k ≤ N) at a fixed time starting
from the empty store, the entry holds count k and the original window. -/
theorem repeatCalls_entry (id : String) (N W now : Nat) :
    ∀ k, 1 ≤ k → k ≤ N →
      storeGet (repeatCalls id N W now k []) id = some ⟨k, now + W⟩ := by
  intro k
  induction k with
  | zero => omega
  | succ n ih =>
    intro _ hle
    by_cases hn : n = 0
    · subst hn
      simp [repeatCalls, checkRateLimit, storeGet, storeGet_storeSet]
    · have h1 : 1 ≤ n := by omega
      have h2 : n ≤ N := by omega
      have hget := ih h1 h2
      show storeGet (checkRateLimit (repeatCalls id N W now n []) id N W now).2 id = _
      rw [checkRateLimit, hget]
      dsimp only
      rw [if_neg (by omega), if_neg (by omega)]
      simpa using storeGet_storeSet _ id _

/-- C2: the three branches of checkRateLimit behave as specified (fresh
entry with count 1 and window now+W on a missing or expired entry, denial
reporting the stored resetAt when the count has reached the limit inside
the window, increment otherwise); consequently the call after the N-th one
within one window is denied, and the first call after the window elapses
is allowed with the counter reset to 1. -/
theorem checkRateLimit_spec :
    (∀ store id N W now, storeGet store id = none →
      (checkRateLimit store id N W now).1 = ⟨true, none⟩ ∧
      storeGet (checkRateLimit store id N W now).2 id = some ⟨1, now + W⟩) ∧
    (∀ store id N W now e, storeGet store id = some e → now > e.resetTime →
      (checkRateLimit store id N W now).1 = ⟨true, none⟩ ∧
      storeGet (checkRateLimit store id N W now).2 id = some ⟨1, now + W⟩) ∧
    (∀ store id N W now e, storeGet store id = some e → now ≤ e.resetTime →
      e.count ≥ N →
      checkRateLimit store id N W now = (⟨false, some e.resetTime⟩, store)) ∧
    (∀ store id N W now e, storeGet store id = some e → now ≤ e.resetTime →
      e.count < N →
      (checkRateLimit store id N W now).1 = ⟨true, none⟩ ∧
      storeGet (checkRateLimit store id N W now).2 id = some ⟨e.count + 1, e.resetTime⟩) ∧
    (∀ id N W now, 1 ≤ N →
      (checkRateLimit (repeatCalls id N W now N []) id N W now).1.allowed = false ∧
      (checkRateLimit (repeatCalls id N W now N []) id N W now).1.resetTime =
        some (now + W)) ∧
    (∀ id N W now later, 1 ≤ N → now + W < later →
      (checkRateLimit (repeatCalls id N W now N []) id N W later).1.allowed = true ∧
      storeGet (checkRateLimit (repeatCalls id N W now N []) id N W later).2 id =
        some ⟨1, later + W⟩) := by
  refine ⟨?_, ?_, ?_, ?_, ?_, ?_⟩
  · intro store id N W now h
    rw [checkRateLimit, h]
    exact ⟨rfl, storeGet_storeSet _ _ _⟩
  · intro store id N W now e h hnow
    rw [checkRateLimit, h]
    dsimp only
    rw [if_pos hnow]
    exact ⟨rfl, storeGet_storeSet _ _ _⟩
  · intro store id N W now e h hnow hcnt
    rw [checkRateLimit, h]
    dsimp only
    rw [if_neg (by omega), if_pos hcnt]
  · intro store id N W now e h hnow hcnt
    rw [checkRateLimit, h]
    dsimp only
    rw [if_neg (by omega), if_neg (by omega)]
    exact ⟨rfl, storeGet_storeSet _ _ _⟩
  · intro id N W now hN
    have hget := repeatCalls_entry id N W now N hN le_rfl
    rw [checkRateLimit, hget]
    dsimp only
    rw [if_neg (by omega), if_pos (by omega)]
    exact ⟨rfl, rfl⟩
  · intro id N W now later hN hlater
    have hget := repeatCalls_entry id N W now N hN le_rfl
    rw [checkRateLimit, hget]
    dsimp only
    rw [if_pos (by omega)]
    exact ⟨rfl, storeGet_storeSet _ _ _⟩

/-- Witness for C2 with N = 2, W = 5, now = 100: the third call inside the
window is denied reporting resetAt 105, and a call at time 106 is allowed
with the counter reset to 1. -/
theorem checkRateLimit_spec_witness :
    (checkRateLimit (repeatCalls "a" 2 5 100 2 []) "a" 2 5 100).1.allowed = false ∧
    (checkRateLimit (repeatCalls "a" 2 5 100 2 []) "a" 2 5 106).1.allowed = true ∧
    storeGet (checkRateLimit (repeatCalls "a" 2 5 100 2 []) "a" 2 5 106).2 "a" =
      some ⟨1, 111⟩ :=
  ⟨(checkRateLimit_spec.2.2.2.2.1 "a" 2 5 100 (by decide)).1,
   (checkRateLimit_spec.2.2.2.2.2 "a" 2 5 100 106 (by decide) (by decide)).1,
   (checkRateLimit_spec.2.2.2.2.2 "a" 2 5 100 106 (by decide) (by decide)).2⟩

/-- Helper: membership in a conditional singleton produced by one
validation push. -/
theorem mem_ite_singleton {c : Prop} [Decidable c] {a b : String} :
    (a ∈ if c then [b] else []) ↔ c ∧ a = b := by
  split <;> simp_all

/-- Helper: the sanitized text never exceeds the 5000-character clamp. -/
theorem sanitizeTextInput_length_le (s : List Char) :
    (sanitizeTextInput s).length ≤ 5000 := by
  unfold sanitizeTextInput
  exact List.length_take_le _ _

/-- Helper: the isValid flag of validateTTSRequest is the emptiness test of
its errors list. -/
theorem validateTTSRequest_isValid (b : TTSBody) :
    (validateTTSRequest b).isValid = decide ((validateTTSRequest b).errors = []) := rfl

/-- C10: in the tts handler the over-length branch is unreachable; because
sanitizeTextInput truncates to 5000 characters before validation runs, the
over-length violation never appears in the validation details, whatever the
request body was. -/
theorem tts_overlength_violation_unreachable (body : TTSBody) :
    msgTextTooLong ∉ (validateTTSRequest (ttsSanitizeStage body)).errors := by
  have hlen : ¬((ttsSanitizeStage body).text ≠ [] ∧
      (ttsSanitizeStage body).text.length > 5000) := by
    unfold ttsSanitizeStage
    split
    · dsimp only
      intro h
      have := sanitizeTextInput_length_le body.text
      omega
    · rename_i hfalse
      intro h
      exact hfalse h.1
  intro hmem
  unfold validateTTSRequest at hmem
  simp only [List.mem_append, mem_ite_singleton, and_true] at hmem
  rcases hmem with
    ((((((⟨_, he⟩ | ⟨_, he⟩) | hc) | ⟨_, he⟩) | ⟨_, he⟩) | ⟨_, he⟩) | ⟨_, he⟩)
  · exact absurd he (by decide)
  · exact absurd he (by decide)
  · exact hlen hc
  · exact absurd he (by decide)
  · exact absurd he (by decide)
  · exact absurd he (by decide)
  · exact absurd he (by decide)

/-- C8 counterexample: a request with speed = 0 (outside the interval, so
the claim demands a 400 validation failure) passes validation, because the
truthiness guard of the source skips the speed check for the falsy number
zero. -/
theorem tts_speed_zero_not_rejected :
    (validateTTSRequest ⟨['h', 'i'], some ['m'], none, none, some 0⟩).isValid = true ∧
    ttsPOSTValidation ⟨['h', 'i'], some ['m'], none, none, some 0⟩ = none := by
  constructor <;> decide

/-- C8 amended: a speed field that is a nonzero number outside the interval
produces a 400 validation failure listing the speed violation; a speed
inside the interval produces no speed violation; speed = 0 is skipped by
the truthiness guard and produces no violation. -/
theorem tts_speed_validation (body : TTSBody) (v : ℚ) (hv : body.speed = some v) :
    ((v ≠ 0 ∧ (v ≤ 0 ∨ 3 < v)) →
      ∃ errs, ttsPOSTValidation body = some (400, errs) ∧ msgSpeed ∈ errs) ∧
    ((0 < v ∧ v ≤ 3) → msgSpeed ∉ (validateTTSRequest body).errors) ∧
    (v = 0 → msgSpeed ∉ (validateTTSRequest body).errors) := by
  have hsome : speedViolation (some v) ↔ v ≠ 0 ∧ (v ≤ 0 ∨ v > 3) := Iff.rfl
  have hdistinct : ∀ b : TTSBody, msgSpeed ∈ (validateTTSRequest b).errors →
      speedViolation b.speed := by
    intro b hmem
    unfold validateTTSRequest at hmem
    simp only [List.mem_append, mem_ite_singleton, and_true] at hmem
    rcases hmem with
      ((((((⟨_, he⟩ | ⟨_, he⟩) | ⟨_, he⟩) | ⟨_, he⟩) | ⟨_, he⟩) | ⟨_, he⟩) | hc)
    · exact absurd he (by decide)
    · exact absurd he (by decide)
    · exact absurd he (by decide)
    · exact absurd he (by decide)
    · exact absurd he (by decide)
    · exact absurd he (by decide)
    · exact hc
  refine ⟨?_, ?_, ?_⟩
  · intro hcond
    have hstage : (ttsSanitizeStage body).speed = some v := by
      unfold ttsSanitizeStage
      split <;> simpa using hv
    have hviol : speedViolation (ttsSanitizeStage body).speed := by
      rw [hstage, hsome]
      exact hcond
    have hmem : msgSpeed ∈ (validateTTSRequest (ttsSanitizeStage body)).errors := by
      unfold validateTTSRequest
      simp only [List.mem_append, mem_ite_singleton, and_true]
      exact Or.inr hviol
    have hne : (validateTTSRequest (ttsSanitizeStage body)).errors ≠ [] := by
      intro h0
      rw [h0] at hmem
      exact absurd hmem (List.not_mem_nil _)
    refine ⟨(validateTTSRequest (ttsSanitizeStage body)).errors, ?_, hmem⟩
    unfold ttsPOSTValidation
    rw [if_neg]
    rw [validateTTSRequest_isValid]
    simp [hne]
  · intro hin hmem
    have hviol := hdistinct body hmem
    rw [hv, hsome] at hviol
    rcases hviol.2 with h | h
    · exact absurd hin.1 (not_lt.mpr h)
    · exact absurd hin.2 (not_le.mpr h)
  · intro h0 hmem
    have hviol := hdistinct body hmem
    rw [hv, hsome] at hviol
    exact hviol.1 h0

/-- Witness for C8 amended: speed 4 is rejected with the speed message in
the details, speed 2 and speed 0 produce no speed violation. -/
theorem tts_speed_validation_witness :
    (∃ errs, ttsPOSTValidation ⟨['h', 'i'], some ['m'], none, none, some 4⟩ =
      some (400, errs) ∧ msgSpeed ∈ errs) ∧
    msgSpeed ∉ (validateTTSRequest ⟨['h', 'i'], some ['m'], none, none, some 2⟩).errors ∧
    msgSpeed ∉ (validateTTSRequest ⟨['h', 'i'], some ['m'], none, none, some 0⟩).errors :=
  ⟨(tts_speed_validation _ 4 rfl).1 ⟨by norm_num, Or.inr (by norm_num)⟩,
   (tts_speed_validation _ 2 rfl).2.1 ⟨by norm_num, by norm_num⟩,
   (tts_speed_validation _ 0 rfl).2.2 rfl⟩

/-- C5 counterexample: a create-model request violating two constraints at
once (empty name and missing audio) is answered 400 with only the first
violation in a message field and no details array at all, contradicting
the claim that both handlers enumerate every violated constraint in a
details field. -/
theorem createModel_validation_lacks_details :
    (createModelPOST [] none [] .failure []).status = 400 ∧
    (createModelPOST [] none [] .failure []).message = msgNameRequired ∧
    (createModelPOST [] none [] .failure []).details = none := by
  refine ⟨rfl, rfl, rfl⟩

/-- C5 amended: the tts handler answers an invalid body with 400 and a
details array that lists every violated constraint (one implication per
constraint of the source); the create-model handler exits 400 on the first
violated constraint with a message only and never includes a details
array. -/
theorem validation_error_reporting :
    (∀ body, (validateTTSRequest (ttsSanitizeStage body)).isValid = false →
      ttsPOSTValidation body =
        some (400, (validateTTSRequest (ttsSanitizeStage body)).errors)) ∧
    (∀ body : TTSBody,
      ((body.text = [] ∨ jsTrim body.text = []) →
        msgTextRequired ∈ (validateTTSRequest body).errors) ∧
      ((body.text ≠ [] ∧ "<script".data <:+: body.text) →
        msgMalicious ∈ (validateTTSRequest body).errors) ∧
      ((body.text ≠ [] ∧ body.text.length > 5000) →
        msgTextTooLong ∈ (validateTTSRequest body).errors) ∧
      ((¬optTruthy body.modelId ∧ ¬optTruthy body.modelName) →
        msgModelRequired ∈ (validateTTSRequest body).errors) ∧
      ((optTruthy body.modelId ∧ jsTrim (body.modelId.getD []) = []) →
        msgModelIdEmpty ∈ (validateTTSRequest body).errors) ∧
      (formatViolation body.format → msgFormat ∈ (validateTTSRequest body).errors) ∧
      (speedViolation body.speed → msgSpeed ∈ (validateTTSRequest body).errors)) ∧
    (∀ rawName audio store provider freshId,
      (createModelPOST rawName audio store provider freshId).details = none) := by
  refine ⟨?_, ?_, ?_⟩
  · intro body h
    unfold ttsPOSTValidation
    rw [if_neg]
    rw [h]
    simp
  · intro body
    refine ⟨?_, ?_, ?_, ?_, ?_, ?_, ?_⟩ <;>
      (intro hc
       unfold validateTTSRequest
       simp only [List.mem_append, mem_ite_singleton, and_true])
    · exact Or.inl (Or.inl (Or.inl (Or.inl (Or.inl (Or.inl hc)))))
    · exact Or.inl (Or.inl (Or.inl (Or.inl (Or.inl (Or.inr hc)))))
    · exact Or.inl (Or.inl (Or.inl (Or.inl (Or.inr hc))))
    · exact Or.inl (Or.inl (Or.inl (Or.inr hc)))
    · exact Or.inl (Or.inl (Or.inr hc))
    · exact Or.inl (Or.inr hc)
    · exact Or.inr hc
  · intro rawName audio store provider freshId
    rcases audio with _ | bytes
    · unfold createModelPOST
      dsimp only
      split_ifs <;> rfl
    · rcases provider with resp | _ <;>
        (unfold createModelPOST; dsimp only; split_ifs <;> rfl)

/-- Witness for C5 amended: a tts body with two violations is answered 400
with both messages in the details; the create-model outcome of the
counterexample request has no details field. -/
theorem validation_error_reporting_witness :
    ttsPOSTValidation ⟨[], none, none, none, none⟩ =
      some (400, [msgTextRequired, msgModelRequired]) ∧
    msgTextRequired ∈ (validateTTSRequest ⟨[], none, none, none, none⟩).errors ∧
    (createModelPOST [] none [] .failure []).details = none :=
  ⟨by rw [validation_error_reporting.1 ⟨[], none, none, none, none⟩ (by decide)]; decide,
   (validation_error_reporting.2.1 ⟨[], none, none, none, none⟩).1 (Or.inl rfl),
   validation_error_reporting.2.2 [] none [] .failure []⟩

/-- C6: a create-model request whose upload fails the audio-format
validation exits 400 with the temp upload deleted, without calling the
provider, without attempting a store write, and with the store unchanged. -/
theorem createModel_invalid_audio_shortcircuits (rawName : List Char)
    (bytes : List Nat) (store : List ModelRow) (provider : ProviderOutcome)
    (freshId : List Char)
    (h1 : 1 ≤ (sanitizeTextInput rawName).length)
    (h2 : (sanitizeTextInput rawName).length ≤ 100)
    (h3 : (validateAudioFile bytes).isValid = false) :
    (createModelPOST rawName (some bytes) store provider freshId).status = 400 ∧
    (createModelPOST rawName (some bytes) store provider freshId).store = store ∧
    (createModelPOST rawName (some bytes) store provider freshId).providerCalled = false ∧
    (createModelPOST rawName (some bytes) store provider freshId).dbInsertAttempted
      = false ∧
    (createModelPOST rawName (some bytes) store provider freshId).tempFileDeleted
      = true := by
  unfold createModelPOST
  rw [if_neg (by omega), if_neg (by omega)]
  dsimp only
  rw [if_pos h3]
  exact ⟨rfl, rfl, rfl, rfl, rfl⟩

/-- Witness for C6: a one-letter name with an 8-byte buffer matching no
signature takes the invalid-format exit. -/
theorem createModel_invalid_audio_shortcircuits_witness :
    (createModelPOST ['V'] (some [9, 9, 9, 9, 9, 9, 9, 9]) [] .failure []).status = 400 ∧
    (createModelPOST ['V'] (some [9, 9, 9, 9, 9, 9, 9, 9]) [] .failure []).store = [] ∧
    (createModelPOST ['V'] (some [9, 9, 9, 9, 9, 9, 9, 9]) []
      .failure []).providerCalled = false ∧
    (createModelPOST ['V'] (some [9, 9, 9, 9, 9, 9, 9, 9]) []
      .failure []).dbInsertAttempted = false ∧
    (createModelPOST ['V'] (some [9, 9, 9, 9, 9, 9, 9, 9]) []
      .failure []).tempFileDeleted = true :=
  createModel_invalid_audio_shortcircuits ['V'] [9, 9, 9, 9, 9, 9, 9, 9] [] .failure []
    (by decide) (by decide) (by decide)

/-- C7: when the provider call returns without a non-empty model
identifier, the create-model operation is treated as failed (status 502,
not 201) even though the transport-level response succeeded, no store
insert is attempted, and the store is unchanged. -/
theorem createModel_empty_remote_id_fails (rawName : List Char) (bytes : List Nat)
    (store : List ModelRow) (resp : CloneResponse) (freshId : List Char)
    (h1 : 1 ≤ (sanitizeTextInput rawName).length)
    (h2 : (sanitizeTextInput rawName).length ≤ 100)
    (h3 : (validateAudioFile bytes).isValid = true)
    (h4 : getModelByName store (sanitizeTextInput rawName) = none)
    (h5 : resp.id = none ∨ resp.id = some []) :
    (createModelPOST rawName (some bytes) store (.success resp) freshId).status = 502 ∧
    (createModelPOST rawName (some bytes) store (.success resp) freshId).store = store ∧
    (createModelPOST rawName (some bytes) store (.success resp)
      freshId).dbInsertAttempted = false := by
  unfold createModelPOST
  rw [if_neg (by omega), if_neg (by omega)]
  dsimp only
  rw [if_neg (by simp [h3]), if_neg (by simp [h4]), if_pos h5]
  exact ⟨rfl, rfl, rfl⟩

/-- Witness for C7: a valid RIFF upload with an empty remote identifier in
the clone response exits 502 with the empty store unchanged. -/
theorem createModel_empty_remote_id_fails_witness :
    (createModelPOST ['V'] (some [0x52, 0x49, 0x46, 0x46, 0, 0, 0, 0]) []
      (.success ⟨some [], ['s'], ['m']⟩) []).status = 502 ∧
    (createModelPOST ['V'] (some [0x52, 0x49, 0x46, 0x46, 0, 0, 0, 0]) []
      (.success ⟨some [], ['s'], ['m']⟩) []).store = [] ∧
    (createModelPOST ['V'] (some [0x52, 0x49, 0x46, 0x46, 0, 0, 0, 0]) []
      (.success ⟨some [], ['s'], ['m']⟩) []).dbInsertAttempted = false :=
  createModel_empty_remote_id_fails ['V'] [0x52, 0x49, 0x46, 0x46, 0, 0, 0, 0] []
    ⟨some [], ['s'], ['m']⟩ [] (by decide) (by decide) (by decide) (by decide)
    (Or.inr rfl)

/-- C9 counterexample: the supplied value 100 is rejected by the schema
with a validation error instead of being clamped into the 1 to 50 range. -/
theorem maxFileSize_not_clamped :
    parseMaxFileSizeMB (some 100) = Except.error msgFileSizeTooBig := by
  unfold parseMaxFileSizeMB
  dsimp only
  rw [if_neg (by norm_num), if_pos (by norm_num)]

/-- C9 amended: the maximum-upload-size configuration defaults to 10 when
the environment variable is absent, accepts in-range values unchanged, and
rejects every out-of-range value with a validation error (startup failure)
rather than clamping it. -/
theorem maxFileSize_schema_spec :
    parseMaxFileSizeMB none = Except.ok 10 ∧
    (∀ v : ℚ, 1 ≤ v → v ≤ 50 → parseMaxFileSizeMB (some v) = Except.ok v) ∧
    (∀ v : ℚ, v < 1 ∨ 50 < v → ∃ e, parseMaxFileSizeMB (some v) = Except.error e) := by
  refine ⟨rfl, ?_, ?_⟩
  · intro v hlo hhi
    unfold parseMaxFileSizeMB
    dsimp only
    rw [if_neg (not_lt.mpr hlo), if_neg (not_lt.mpr hhi)]
  · intro v hv
    rcases hv with h | h
    · exact ⟨msgFileSizeTooSmall, by unfold parseMaxFileSizeMB; dsimp only; rw [if_pos h]⟩
    · refine ⟨msgFileSizeTooBig, ?_⟩
      unfold parseMaxFileSizeMB
      dsimp only
      rw [if_neg (not_lt.mpr (by linarith)), if_pos h]

/-- Witness for C9 amended at concrete values 25 (accepted) and 100
(rejected). -/
theorem maxFileSize_schema_spec_witness :
    parseMaxFileSizeMB (some 25) = Except.ok 25 ∧
    (∃ e, parseMaxFileSizeMB (some 100) = Except.error e) :=
  ⟨maxFileSize_schema_spec.2.1 25 (by norm_num) (by norm_num),
   maxFileSize_schema_spec.2.2 100 (Or.inr (by norm_num))⟩

/-- Helper: when the text has no script-tag match the script removal pass
leaves it unchanged. -/
theorem removeScriptsF_eq_self : ∀ (fuel : Nat) (s : List Char),
    hasScriptMatch s = false → removeScriptsF fuel s = s := by
  intro fuel
  induction fuel with
  | zero => intro s _; rfl
  | succ n ih =>
    intro s hs
    match s with
    | [] => rfl
    | c :: rest =>
      rw [hasScriptMatch, Bool.or_eq_false_iff] at hs
      obtain ⟨h1, h2⟩ := hs
      rw [removeScriptsF]
      split_ifs with ho
      · rw [ho] at h1
        simp only [Bool.true_and] at h1
        cases hfc : findAfterCloseScript ((c :: rest).drop 7) with
        | none => simp only [hfc]; rw [ih rest h2]
        | some rem => rw [hfc] at h1; simp at h1
      · rw [ih rest h2]

/-- Helper: when the text has no javascript: occurrence the scheme removal
pass leaves it unchanged. -/
theorem removeJSF_eq_self : ∀ (fuel : Nat) (s : List Char),
    hasJSMatch s = false → removeJSF fuel s = s := by
  intro fuel
  induction fuel with
  | zero => intro s _; rfl
  | succ n ih =>
    intro s hs
    match s with
    | [] => rfl
    | c :: rest =>
      rw [hasJSMatch, Bool.or_eq_false_iff] at hs
      obtain ⟨h1, h2⟩ := hs
      rw [removeJSF]
      split_ifs with ho
      · rw [ho] at h1
        exact absurd h1 (by decide)
      · rw [ih rest h2]

/-- Helper: when the text has no event-handler match the event removal
pass leaves it unchanged. -/
theorem removeEventsF_eq_self : ∀ (fuel : Nat) (s : List Char),
    hasEventMatch s = false → removeEventsF fuel s = s := by
  intro fuel
  induction fuel with
  | zero => intro s _; rfl
  | succ n ih =>
    intro s hs
    match s with
    | [] => rfl
    | c :: rest =>
      rw [hasEventMatch, Bool.or_eq_false_iff] at hs
      obtain ⟨h1, h2⟩ := hs
      rw [removeEventsF]
      cases hec : eventMatchAt (c :: rest) with
      | none => simp only [hec]; rw [ih rest h2]
      | some rem => rw [hec] at h1; simp at h1

/-- Helper: a text of the fixed-point shape is left unchanged by the whole
sanitizer. -/
theorem sanitizeTextInput_fixed (x : List Char) (h : isSanitized x) :
    sanitizeTextInput x = x := by
  obtain ⟨h1, h2, h3, h4, h5⟩ := h
  unfold sanitizeTextInput removeScripts removeJS removeEvents
  rw [h1, removeScriptsF_eq_self _ _ h2, removeJSF_eq_self _ _ h3,
    removeEventsF_eq_self _ _ h4, List.take_of_length_le h5]

/-- C4 counterexample: the sanitizer is not idempotent; removing the inner
javascript: occurrence of this input reassembles a new one, which only a
second pass removes. -/
theorem sanitizeTextInput_not_idempotent :
    sanitizeTextInput "javajavascript:script:".data = "javascript:".data ∧
    sanitizeTextInput (sanitizeTextInput "javajavascript:script:".data) = [] ∧
    sanitizeTextInput (sanitizeTextInput "javajavascript:script:".data) ≠
      sanitizeTextInput "javajavascript:script:".data := by
  refine ⟨by decide, by decide, by decide⟩

/-- C4 amended: the sanitizer is idempotent exactly on the inputs whose
sanitized output is of the fixed-point shape: trimmed, free of script-tag
matches, javascript: occurrences and event-handler matches, and within the
length clamp.  On other inputs a second application can differ (see the
counterexample). -/
theorem sanitizeTextInput_conditionally_idempotent (s : List Char)
    (h : isSanitized (sanitizeTextInput s)) :
    sanitizeTextInput (sanitizeTextInput s) = sanitizeTextInput s :=
  sanitizeTextInput_fixed _ h

/-- Witness for C4 amended at a benign input. -/
theorem sanitizeTextInput_conditionally_idempotent_witness :
    sanitizeTextInput (sanitizeTextInput "hello world".data) =
      sanitizeTextInput "hello world".data :=
  sanitizeTextInput_conditionally_idempotent "hello world".data (by decide)

/-- Helper: a cons on a non-slash character does not change hasPath. -/
theorem hasPath_cons_of_ne {c : Char} (rest : List Char) (h : c ≠ '/') :
    hasPath (c :: rest) = hasPath rest := by
  rw [hasPath]
  simp [h]

/-- Helper: prefixing by slash-free text does not change hasPath. -/
theorem hasPath_append_of_no_slash : ∀ (x z : List Char),
    (∀ a ∈ x, a ≠ '/') → hasPath (x ++ z) = hasPath z := by
  intro x
  induction x with
  | nil => intro z _; rfl
  | cons a x ih =>
    intro z hx
    rw [List.cons_append, hasPath_cons_of_ne _ (hx a (List.mem_cons_self a x))]
    exact ih z (fun b hb => hx b (List.mem_cons_of_mem a hb))

/-- Helper: hasPath is inherited downward by suffixes. -/
theorem hasPath_suffix : ∀ (x z : List Char),
    hasPath (x ++ z) = false → hasPath z = false := by
  intro x
  induction x with
  | nil => intro z h; exact h
  | cons a x ih =>
    intro z h
    rw [List.cons_append, hasPath, Bool.or_eq_false_iff] at h
    exact ih z h.2

/-- Helper: membership in the leading run is preserved when the list is
extended on the right. -/
theorem mem_takeWhile_append_mono {p : Char → Bool} {b : Char} : ∀ (x z : List Char),
    b ∈ x.takeWhile p → b ∈ (x ++ z).takeWhile p := by
  intro x
  induction x with
  | nil => intro z h; exact absurd h (List.not_mem_nil b)
  | cons a x ih =>
    intro z h
    by_cases hp : p a
    · rw [List.takeWhile_cons_of_pos hp] at h
      rw [List.cons_append, List.takeWhile_cons_of_pos hp]
      rcases List.mem_cons.mp h with h | h
      · exact List.mem_cons.mpr (Or.inl h)
      · exact List.mem_cons.mpr (Or.inr (ih z h))
    · rw [List.takeWhile_cons_of_neg hp] at h
      exact absurd h (List.not_mem_nil b)

/-- Helper: hasPath is monotone under extension on the right. -/
theorem hasPath_append_left : ∀ (x z : List Char),
    hasPath x = true → hasPath (x ++ z) = true := by
  intro x
  induction x with
  | nil => intro z h; exact absurd h (by decide)
  | cons a x ih =>
    intro z h
    rw [hasPath, Bool.or_eq_true] at h
    rw [List.cons_append, hasPath, Bool.or_eq_true]
    rcases h with h | h
    · rw [decide_eq_true_iff] at h
      exact Or.inl (decide_eq_true (⟨h.1, mem_takeWhile_append_mono x z h.2⟩))
    · exact Or.inr (ih z h)

/-- Helper: hasPath is inherited downward by prefixes. -/
theorem hasPath_prefix (x z : List Char) (h : hasPath (x ++ z) = false) :
    hasPath x = false := by
  cases hx : hasPath x with
  | false => rfl
  | true => rw [hasPath_append_left x z hx] at h; exact absurd h (by decide)

/-- Helper: the slash is a non-space character. -/
theorem slash_nonspace : nonSpace '/' = true := by decide

/-- Helper: the path-replacement pass never leaves a slash in the leading
non-space run when the input had none there. -/
theorem replacePathsF_no_slash_lead : ∀ (fuel : Nat) (t : List Char),
    '/' ∉ t.takeWhile nonSpace →
    '/' ∉ (replacePathsF fuel t).takeWhile nonSpace := by
  intro fuel
  induction fuel with
  | zero => intro t h; exact h
  | succ n ih =>
    intro t h
    match t with
    | [] => exact h
    | c :: rest =>
      rw [replacePathsF]
      split_ifs with hcond
      · exfalso
        apply h
        rw [hcond.1, List.takeWhile_cons_of_pos slash_nonspace]
        exact List.mem_cons_self _ _
      · by_cases hq : nonSpace c = true
        · rw [List.takeWhile_cons_of_pos hq] at h ⊢
          rw [List.mem_cons, not_or] at h ⊢
          exact ⟨h.1, ih rest h.2⟩
        · rw [List.takeWhile_cons_of_neg (by simpa using hq)]
          exact List.not_mem_nil '/'

/-- Helper: the replacement marker contains no slash. -/
theorem filePathMarker_no_slash : ∀ a ∈ filePathMarker, a ≠ '/' := by decide

/-- Helper: the output of the path-replacement pass contains no match of
the path regex at all. -/
theorem replacePathsF_no_path : ∀ (fuel : Nat) (t : List Char),
    t.length ≤ fuel → hasPath (replacePathsF fuel t) = false := by
  intro fuel
  induction fuel with
  | zero =>
    intro t ht
    have : t = [] := List.length_eq_zero.mp (Nat.le_zero.mp ht)
    subst this
    rfl
  | succ n ih =>
    intro t ht
    match t with
    | [] => rfl
    | c :: rest =>
      have hlen : rest.length ≤ n := by
        simpa using Nat.succ_le_succ_iff.mp ht
      rw [replacePathsF]
      split_ifs with hcond
      · rw [hasPath_append_of_no_slash _ _ filePathMarker_no_slash]
        refine ih _ ?_
        exact le_trans (List.Sublist.length_le (List.dropWhile_sublist _)) hlen
      · rw [hasPath, Bool.or_eq_false_iff]
        refine ⟨decide_eq_false ?_, ih rest hlen⟩
        rintro ⟨hc, hmem⟩
        have hno : '/' ∉ rest.takeWhile nonSpace := by
          intro hin
          exact hcond ⟨hc, hin⟩
        exact replacePathsF_no_slash_lead n rest hno hmem

/-- Helper: the first line of a path-free message is path-free. -/
theorem hasPath_firstLine (s : List Char) (h : hasPath s = false) :
    hasPath (firstLine s) = false := by
  apply hasPath_prefix (firstLine s) (s.dropWhile (fun c => c ≠ '\n'))
  unfold firstLine
  rw [List.takeWhile_append_dropWhile]
  exact h

/-- Helper: the first line contains no newline. -/
theorem newline_not_mem_firstLine (s : List Char) : '\n' ∉ firstLine s := by
  intro h
  have := List.mem_takeWhile_imp h
  simp at this

/-- Helper: hexadecimal characters are not slashes. -/
theorem hex_ne_slash {a : Char} (h : isHexChar a = true) : a ≠ '/' := by
  intro heq
  subst heq
  exact absurd h (by decide)

/-- Helper: hexadecimal characters are non-space. -/
theorem hex_nonSpace {a : Char} (h : isHexChar a = true) : nonSpace a = true := by
  rw [nonSpace, Bool.not_eq_true']
  by_contra hs
  rw [Bool.not_eq_false] at hs
  rw [isSpaceJS] at hs
  simp only [Bool.or_eq_true, decide_eq_true_iff] at hs
  rcases hs with ((((h1 | h1) | h1) | h1) | h1) | h1 <;> subst h1 <;>
    exact absurd h (by decide)

/-- Helper: the token marker contains no slash. -/
theorem tokenMarker_no_slash : ∀ a ∈ tokenMarker, a ≠ '/' := by decide

/-- Helper: the token marker contains no newline. -/
theorem tokenMarker_no_newline : '\n' ∉ tokenMarker := by decide

/-- Helper: every token-marker character is non-space. -/
theorem tokenMarker_nonSpace : ∀ a ∈ tokenMarker, nonSpace a = true := by decide

/-- Helper: the leading run of the remainder of dropWhile is empty. -/
theorem takeWhile_dropWhile_nil (p : Char → Bool) : ∀ (l : List Char),
    (l.dropWhile p).takeWhile p = [] := by
  intro l
  induction l with
  | nil => rfl
  | cons a t ih =>
    by_cases hp : p a
    · rw [List.dropWhile_cons_of_pos hp]
      exact ih
    · rw [List.dropWhile_cons_of_neg hp, List.takeWhile_cons_of_neg hp]

/-- Helper: the hex-replacement pass preserves the absence of a newline. -/
theorem newline_not_mem_replaceHexF : ∀ (fuel : Nat) (t : List Char),
    '\n' ∉ t → '\n' ∉ replaceHexF fuel t := by
  intro fuel
  induction fuel with
  | zero => intro t h; exact h
  | succ n ih =>
    intro t h
    match t with
    | [] => exact h
    | c :: rest =>
      rw [replaceHexF]
      split_ifs with hhex h32
      · intro hmem
        rcases List.mem_append.mp hmem with hm | hm
        · exact tokenMarker_no_newline hm
        · exact ih _ (fun hin => h ((List.dropWhile_sublist _).subset hin)) hm
      · intro hmem
        rcases List.mem_append.mp hmem with hm | hm
        · exact h ((List.takeWhile_sublist _).subset hm)
        · exact ih _ (fun hin => h ((List.dropWhile_sublist _).subset hin)) hm
      · intro hmem
        rcases List.mem_cons.mp hmem with hm | hm
        · exact h (hm ▸ List.mem_cons_self c rest)
        · exact ih rest (fun hin => h (List.mem_cons_of_mem c hin)) hm

/-- Helper: the hex-replacement pass never introduces a slash into the
leading non-space run. -/
theorem replaceHexF_no_slash_lead : ∀ (fuel : Nat) (t : List Char),
    '/' ∉ t.takeWhile nonSpace →
    '/' ∉ (replaceHexF fuel t).takeWhile nonSpace := by
  intro fuel
  induction fuel with
  | zero => intro t h; exact h
  | succ n ih =>
    intro t h
    match t with
    | [] => exact h
    | c :: rest =>
      have hdrop : '/' ∉ ((c :: rest).dropWhile isHexChar).takeWhile nonSpace := by
        have aux : ∀ (x : List Char), '/' ∉ x.takeWhile nonSpace →
            '/' ∉ (x.dropWhile isHexChar).takeWhile nonSpace := by
          intro x
          induction x with
          | nil => intro hx; exact hx
          | cons a x ihx =>
            intro hx
            by_cases ha : isHexChar a
            · rw [List.dropWhile_cons_of_pos ha]
              rw [List.takeWhile_cons_of_pos (hex_nonSpace ha), List.mem_cons, not_or] at hx
              exact ihx hx.2
            · rw [List.dropWhile_cons_of_neg ha]
              exact hx
        exact aux (c :: rest) h
      rw [replaceHexF]
      split_ifs with hhex h32
      · rw [List.takeWhile_append_of_pos tokenMarker_nonSpace]
        intro hmem
        rcases List.mem_append.mp hmem with hm | hm
        · exact tokenMarker_no_slash _ hm rfl
        · exact ih _ hdrop hm
      · have hrunpos : ∀ a ∈ (c :: rest).takeWhile isHexChar, nonSpace a = true :=
          fun a ha => hex_nonSpace (List.mem_takeWhile_imp ha)
        rw [List.takeWhile_append_of_pos hrunpos]
        intro hmem
        rcases List.mem_append.mp hmem with hm | hm
        · exact hex_ne_slash (List.mem_takeWhile_imp hm) rfl
        · exact ih _ hdrop hm
      · by_cases hq : nonSpace c = true
        · rw [List.takeWhile_cons_of_pos hq] at h ⊢
          rw [List.mem_cons, not_or] at h ⊢
          exact ⟨h.1, ih rest h.2⟩
        · rw [List.takeWhile_cons_of_neg (by simpa using hq)]
          exact List.not_mem_nil '/'

/-- Helper: the hex-replacement pass preserves the absence of path
matches. -/
theorem hasPath_replaceHexF : ∀ (fuel : Nat) (t : List Char),
    hasPath t = false → hasPath (replaceHexF fuel t) = false := by
  intro fuel
  induction fuel with
  | zero => intro t h; exact h
  | succ n ih =>
    intro t h
    match t with
    | [] => exact h
    | c :: rest =>
      rw [hasPath, Bool.or_eq_false_iff] at h
      obtain ⟨h1, h2⟩ := h
      have hafter : hasPath ((c :: rest).dropWhile isHexChar) = false := by
        have : (c :: rest).takeWhile isHexChar ++ (c :: rest).dropWhile isHexChar
            = c :: rest := List.takeWhile_append_dropWhile _ _
        apply hasPath_suffix ((c :: rest).takeWhile isHexChar)
        rw [this, hasPath, Bool.or_eq_false_iff]
        exact ⟨h1, h2⟩
      rw [replaceHexF]
      split_ifs with hhex h32
      · rw [hasPath_append_of_no_slash _ _ tokenMarker_no_slash]
        exact ih _ hafter
      · rw [hasPath_append_of_no_slash _ _
          (fun a ha => hex_ne_slash (List.mem_takeWhile_imp ha))]
        exact ih _ hafter
      · rw [hasPath, Bool.or_eq_false_iff]
        refine ⟨decide_eq_false ?_, ih rest h2⟩
        rintro ⟨hc, hmem⟩
        have hno : '/' ∉ rest.takeWhile nonSpace := by
          intro hin
          rw [decide_eq_false_iff_not] at h1
          exact h1 ⟨hc, hin⟩
        exact replaceHexF_no_slash_lead n rest hno hmem

/-- Helper: appending after the token marker does not create a long hex
run. -/
theorem hasHexRun_token_append (z : List Char) :
    hasHexRun (tokenMarker ++ z) = hasHexRun z := by
  show hasHexRun ('[' :: 'T' :: 'O' :: 'K' :: 'E' :: 'N' :: ']' :: z) = hasHexRun z
  simp +decide [hasHexRun, List.takeWhile_cons]

/-- Helper: a short all-hex prefix followed by text with an empty hex lead
creates no long hex run. -/
theorem hasHexRun_short_prefix : ∀ (x z : List Char),
    (∀ a ∈ x, isHexChar a = true) → x.length < 32 →
    z.takeWhile isHexChar = [] → hasHexRun z = false →
    hasHexRun (x ++ z) = false := by
  intro x
  induction x with
  | nil => intro z _ _ _ hz; exact hz
  | cons a x ih =>
    intro z hx hlen hzlead hz
    rw [List.cons_append, hasHexRun, Bool.or_eq_false_iff]
    have hxall : ∀ b ∈ x, isHexChar b = true :=
      fun b hb => hx b (List.mem_cons_of_mem a hb)
    constructor
    · have htw : (a :: (x ++ z)).takeWhile isHexChar = a :: x := by
        rw [List.takeWhile_cons_of_pos (hx a (List.mem_cons_self a x)),
          List.takeWhile_append_of_pos hxall, hzlead, List.append_nil]
      rw [htw]
      simp only [decide_eq_false_iff_not, not_le, List.length_cons]
      simpa using hlen
    · exact ih z hxall (by simpa using Nat.lt_of_succ_lt hlen) hzlead hz

/-- Helper: the output of the hex-replacement pass keeps an empty hex lead
when the input had one. -/
theorem takeWhile_hex_replaceHexF_nil (fuel : Nat) (t : List Char)
    (h : t.takeWhile isHexChar = []) :
    (replaceHexF fuel t).takeWhile isHexChar = [] := by
  match fuel, t with
  | 0, t => exact h
  | fuel + 1, [] => exact h
  | fuel + 1, c :: rest =>
    have hc : ¬isHexChar c = true := by
      intro hcc
      rw [List.takeWhile_cons_of_pos hcc] at h
      exact absurd h (by simp)
    rw [replaceHexF, if_neg hc, List.takeWhile_cons_of_neg hc]

/-- Helper: the output of the hex-replacement pass contains no run of 32
or more hexadecimal characters. -/
theorem hasHexRun_replaceHexF : ∀ (fuel : Nat) (t : List Char),
    t.length ≤ fuel → hasHexRun (replaceHexF fuel t) = false := by
  intro fuel
  induction fuel with
  | zero =>
    intro t ht
    have : t = [] := List.length_eq_zero.mp (Nat.le_zero.mp ht)
    subst this
    rfl
  | succ n ih =>
    intro t ht
    match t with
    | [] => rfl
    | c :: rest =>
      have hlen : rest.length ≤ n := by
        simpa using Nat.succ_le_succ_iff.mp ht
      rw [replaceHexF]
      split_ifs with hhex h32
      · rw [hasHexRun_token_append]
        refine ih _ ?_
        rw [List.dropWhile_cons_of_pos hhex]
        exact le_trans (List.Sublist.length_le (List.dropWhile_sublist _)) hlen
      · have hdroplen : ((c :: rest).dropWhile isHexChar).length ≤ n := by
          rw [List.dropWhile_cons_of_pos hhex]
          exact le_trans (List.Sublist.length_le (List.dropWhile_sublist _)) hlen
        refine hasHexRun_short_prefix _ _
          (fun a ha => List.mem_takeWhile_imp ha) (by omega) ?_ (ih _ hdroplen)
        exact takeWhile_hex_replaceHexF_nil n _ (takeWhile_dropWhile_nil isHexChar _)
      · rw [hasHexRun, Bool.or_eq_false_iff]
        refine ⟨?_, ih rest hlen⟩
        rw [List.takeWhile_cons_of_neg hhex]
        decide

/-- C3: for every error message containing a path-shaped substring or a
run of 32 or more hexadecimal characters, the sanitized message contains
no substring matching the path pattern, no run of 32 or more hexadecimal
characters, and no newline. -/
theorem sanitizeErrorMessage_redacts (msg : List Char)
    (_h : hasPath msg = true ∨ hasHexRun msg = true) :
    hasPath (sanitizeErrorMessage msg) = false ∧
    hasHexRun (sanitizeErrorMessage msg) = false ∧
    '\n' ∉ sanitizeErrorMessage msg := by
  unfold sanitizeErrorMessage replaceHex replacePaths
  have hp1 : hasPath (replacePathsF msg.length msg) = false :=
    replacePathsF_no_path msg.length msg le_rfl
  have hp2 : hasPath (firstLine (replacePathsF msg.length msg)) = false :=
    hasPath_firstLine _ hp1
  refine ⟨hasPath_replaceHexF _ _ hp2, hasHexRun_replaceHexF _ _ le_rfl, ?_⟩
  exact newline_not_mem_replaceHexF _ _ (newline_not_mem_firstLine _)

/-- Witness for C3: a message holding a path and a 40-character hex run is
sanitized into a string with no path match, no long hex run and no
newline. -/
theorem sanitizeErrorMessage_redacts_witness :
    hasPath "fail /usr/lib/x".data = true ∧
    hasPath (sanitizeErrorMessage "fail /usr/lib/x".data) = false ∧
    hasHexRun (sanitizeErrorMessage "fail /usr/lib/x".data) = false ∧
    '\n' ∉ sanitizeErrorMessage "fail /usr/lib/x".data :=
  ⟨by decide,
   (sanitizeErrorMessage_redacts _ (Or.inl (by decide))).1,
   (sanitizeErrorMessage_redacts _ (Or.inl (by decide))).2.1,
   (sanitizeErrorMessage_redacts _ (Or.inl (by decide))).2.2⟩

end VoiceClone
